import Mathlib

/-!
Verification of the bookkeeping application in `src/App.js`.

The embedding models the logical core of the program: the balance
reduction `calculateBalance`, the form-submission validation `addEntry`,
the category-change field reset, the CSV export `exportToCSV`, and the
HTML receipt generation `generateReceipt`.

JavaScript values are modelled as follows:
* a stored numeric field that may be `NaN` (e.g. the result of
  `parseFloat` on a non-numeric string) is an `Option ℚ`, with `none`
  playing the role of `NaN`/`undefined` and `some q` a finite number;
* a possibly-missing string field is an `Option String`;
* `parseFloat` of an arbitrary form string is not re-implemented; the
  form state carries both the raw string (for JS truthiness tests) and
  its parse result as environment-supplied data;
* locale-dependent date formatting (`toLocaleDateString`) is an
  environment-supplied function parameter.
-/

/-- A transaction record, mirroring the plain objects stored in the
per-user `accounting_entries` collection (fields of `newEntryData` in
`addEntry`, plus the store-assigned `id`).  `amount` is `none` when the
stored value is missing or `NaN`; `description`, `entityName` and
`paymentMethod` are `none` when missing. -/
structure Entry where
  id : String
  description : Option String
  amount : Option ℚ
  type : String
  entityName : Option String
  entryDate : String
  paymentMethod : Option String
  timestamp : Int
deriving DecidableEq

/-- JS addition where `none` plays the role of `NaN`: `NaN` absorbs. -/
def jsAdd : Option ℚ → Option ℚ → Option ℚ
  | some a, some b => some (a + b)
  | _, _ => none

/-- JS subtraction where `none` plays the role of `NaN`: `NaN` absorbs. -/
def jsSub : Option ℚ → Option ℚ → Option ℚ
  | some a, some b => some (a - b)
  | _, _ => none

/-- The reducer callback of `calculateBalance` in `App.js`: an entry of
type `ingreso` or `apoyo` adds its amount to the accumulator, any other
entry subtracts it.  `parseFloat` applied to the stored amount is the
identity on numbers and `NaN` on `NaN`/missing, which is exactly the
stored `Option ℚ`. -/
def balanceStep (acc : Option ℚ) (entry : Entry) : Option ℚ :=
  if entry.type = "ingreso" || entry.type = "apoyo" then
    jsAdd acc entry.amount
  else
    jsSub acc entry.amount

/-- `calculateBalance` from `App.js`: reduce over the entries with the
accumulator starting at `0`. -/
def calculateBalance (currentEntries : List Entry) : Option ℚ :=
  currentEntries.foldl balanceStep (some 0)

/-- Spec-side balance formula, written from the specification text: the
sum of `amount` over records whose category is income or support, minus
the sum of `amount` over records whose category is expense (an invalid
amount contributes `0`). -/
def specBalance (l : List Entry) : ℚ :=
  ((l.filter (fun e => e.type = "ingreso" || e.type = "apoyo")).map
      (fun e => (e.amount).getD 0)).sum
  - ((l.filter (fun e => e.type = "gasto")).map
      (fun e => (e.amount).getD 0)).sum

/-- The form state of the component: the category radio (`type`), the
text fields, and the amount field.  `amountRaw` is the literal string in
the input; `amountParsed` is the result of `parseFloat(amountRaw)`
(`none` for `NaN`), supplied by the environment rather than
re-implemented. -/
structure FormState where
  type : String
  specificDescription : String
  specificEntityName : String
  amountRaw : String
  amountParsed : Option ℚ
  entryDate : String
  paymentMethod : String
deriving DecidableEq

/-- The JS test `parseFloat(amount) <= 0`.  Crucially, when the parse
result is `NaN` (`none`) every comparison is false. -/
def jsLeZero : Option ℚ → Bool
  | none => false
  | some q => decide (q ≤ 0)

/-- The validation guard of `addEntry` in `App.js`:
`!specificDescription || !amount || parseFloat(amount) <= 0 ||
!entryDate || !specificEntityName` (a JS string is falsy exactly when it
is empty). -/
def addEntryRejects (s : FormState) : Bool :=
  s.specificDescription = "" || s.amountRaw = "" || jsLeZero s.amountParsed
    || s.entryDate = "" || s.specificEntityName = ""

/-- `addEntry` from `App.js`, as the record passed to the gateway's
create operation: `none` when validation rejects (no create call),
`some r` when exactly one create call with record `r` is issued.
The created record stores `parseFloat(amount)` as its amount and the
current time `now` as its `timestamp`; the `id` is assigned later by
the store and is modelled as `""` here. -/
def addEntry (now : Int) (s : FormState) : Option Entry :=
  if addEntryRejects s then none
  else some
    { id := ""
      description := some s.specificDescription
      amount := s.amountParsed
      type := s.type
      entityName := some s.specificEntityName
      entryDate := s.entryDate
      paymentMethod := some s.paymentMethod
      timestamp := now }

/-- The `useEffect` on `type` in `App.js`: when the category changes to
`t`, pre-fill the description with `"Apoyo"` for the support category
and clear it otherwise, clear the name and amount, reset the date to
the current calendar date (`today`, environment-supplied), and reset
the payment method to `"Efectivo"`.  `parseFloat("")` is `NaN`, hence
`amountParsed := none`. -/
def onTypeChange (t today : String) (s : FormState) : FormState :=
  { s with
      type := t
      specificDescription := if t = "apoyo" then "Apoyo" else ""
      specificEntityName := ""
      amountRaw := ""
      amountParsed := none
      entryDate := today
      paymentMethod := "Efectivo" }

/-- Little-endian-to-big-endian decimal digit accumulator with explicit
fuel (`fuel ≥` the number of digits of `n` suffices). -/
def natDigs : Nat → Nat → List Char → List Char
  | 0, _, acc => acc
  | fuel + 1, n, acc =>
      if n = 0 then acc else natDigs fuel (n / 10) (Nat.digitChar (n % 10) :: acc)

/-- Decimal representation of a natural number. -/
def natDecStr (n : Nat) : String :=
  if n = 0 then "0" else String.mk (natDigs n n [])

/-- The two digits of `k % 100`, zero padded. -/
def twoDigs (k : Nat) : List Char :=
  [Nat.digitChar (k / 10 % 10), Nat.digitChar (k % 10)]

/-- The number of cents printed by `toFixed(2)`: the integer closest to
`|q| * 100`, ties towards the larger integer, i.e. `⌊|q| * 100 + 1/2⌋`.
Writing `|q| = |q.num| / q.den`, this floor is
`(200 * |q.num| + q.den) / (2 * q.den)` in natural-number division,
which is how it is computed here (so that it evaluates by kernel
reduction). -/
def jsCents (q : ℚ) : Nat :=
  (200 * q.num.natAbs + q.den) / (2 * q.den)

/-- `Number.prototype.toFixed(2)` on a (finite) number, per the
ECMAScript algorithm: take the sign apart, round `|q|` to a whole
number of cents (ties towards the larger value), and print it with two
decimal places. -/
def toFixed2 (q : ℚ) : String :=
  (if q < 0 then "-" else "") ++ natDecStr (jsCents q / 100)
    ++ "." ++ String.mk (twoDigs (jsCents q % 100))

/-- `String.replace(/"/g, '""')` at the character-list level: every
double-quote character is doubled. -/
def escC : List Char → List Char
  | [] => []
  | c :: cs => if c = '"' then '"' :: '"' :: escC cs else c :: escC cs

/-- `String.replace(/"/g, '""')`. -/
def escQ (s : String) : String :=
  String.mk (escC s.data)

/-- A CSV cell built as in `exportToCSV`:
`` `"${field ? field.replace(/"/g, '""') : ''}"` `` — the field is
wrapped in double quotes, internal quotes doubled, and a missing or
empty field becomes `""` (a JS string is falsy exactly when it is
empty or `undefined`). -/
def quotedCol (o : Option String) : String :=
  "\"" ++ (match o with
    | some s => if s = "" then "" else escQ s
    | none => "") ++ "\""

/-- The amount cell of `exportToCSV`:
`entry.amount ? entry.amount.toFixed(2) : '0.00'` — a missing amount,
`NaN` and `0` are all falsy and print as `0.00`. -/
def amountCol (a : Option ℚ) : String :=
  match a with
  | some q => if q = 0 then "0.00" else toFixed2 q
  | none => "0.00"

/-- The payment-method cell of `exportToCSV`:
`entry.paymentMethod || ''`. -/
def pmCol (o : Option String) : String :=
  match o with
  | some s => s
  | none => ""

/-- `Array.prototype.join(sep)` on an array of strings. -/
def jsJoin (sep : String) : List String → String
  | [] => ""
  | [x] => x
  | x :: xs => x ++ sep ++ jsJoin sep xs

/-- The CSV header columns of `exportToCSV`. -/
def headerCols : List String :=
  ["ID", "Fecha", "Descripción", "Monto", "Tipo", "Entidad", "Método de Pago"]

/-- One CSV row of `exportToCSV`, as the list of its seven cells.  The
date cell is `new Date(entry.timestamp).toLocaleDateString()`, i.e. the
creation timestamp rendered by the environment-supplied locale
formatter `ld` — not `entryDate`. -/
def csvCols (ld : Int → String) (e : Entry) : List String :=
  [e.id, ld e.timestamp, quotedCol e.description, amountCol e.amount,
    e.type, quotedCol e.entityName, pmCol e.paymentMethod]

/-- `exportToCSV` from `App.js`: on an empty record set, no file is
produced and the message is "No hay registros para exportar."; otherwise
the produced file is the header row and one row per entry, in order,
with columns joined by `,` and rows by `\n`, and the message is
"Registros exportados a CSV.".  The result is
(downloaded file contents, user message). -/
def exportToCSV (ld : Int → String) (entries : List Entry) :
    Option String × String :=
  if entries = [] then
    (none, "No hay registros para exportar.")
  else
    (some (jsJoin "," headerCols ++ "\n"
        ++ jsJoin "\n" (entries.map (fun e => jsJoin "," (csvCols ld e)))),
      "Registros exportados a CSV.")

/-- Template-literal interpolation of a possibly-missing string:
`${undefined}` renders as the text `undefined`. -/
def jsStr : Option String → String
  | some s => s
  | none => "undefined"

/-- `entry.amount.toFixed(2)` inside the receipt template (no falsy
guard here, unlike the CSV export): a non-numeric amount renders as
`NaN`. -/
def jsToFixed : Option ℚ → String
  | some q => toFixed2 q
  | none => "NaN"

/-- Receipt template, literal text before the `<title>` interpolation of
`entry.description`. -/
def rLit1 : String :=
  "\n      <!DOCTYPE html>\n      <html lang=\"es\">\n      <head>\n          <meta charset=\"UTF-8\">\n          <meta name=\"viewport\" content=\"width=device-width, initial-scale=1.0\">\n          <title>Recibo de Apoyo - "

/-- Receipt template, literal text between the title and the `Fecha:`
interpolation of the formatted date (the `<style>` block of the
template; brace and apostrophe characters are written with character
escapes). -/
def rLit2 : String :=
  "</title>\n          <style>\n              body \x7b font-family: \x27Inter\x27, sans-serif; line-height: 1.6; color: #333; margin: 20px; \x7d\n              .container \x7b max-width: 600px; margin: 0 auto; padding: 30px; border: 1px solid #eee; box-shadow: 0 0 10px rgba(0,0,0,0.05); \x7d\n              h1 \x7b text-align: center; color: #4F46E5; margin-bottom: 30px; \x7d\n              .details p \x7b margin: 5px 0; \x7d\n              .amount \x7b font-size: 2em; font-weight: bold; text-align: center; color: #10B981; margin-top: 30px; \x7d\n              .footer \x7b text-align: center; margin-top: 50px; font-size: 0.9em; color: #777; \x7d\n          </style>\n      </head>\n      <body>\n          <div class=\"container\">\n              <h1>Recibo de Apoyo</h1>\n              <div class=\"details\">\n                  <p><strong>Fecha:</strong> "

/-- Receipt template, literal text between the date and the `Concepto:`
interpolation of `entry.description`. -/
def rLit3 : String :=
  "</p>\n                  <p><strong>Concepto:</strong> "

/-- Receipt template, literal text between the description and the
`Nombre:` interpolation of `entry.entityName`. -/
def rLit4 : String :=
  "</p>\n                  <p><strong>Nombre:</strong> "

/-- Receipt template, literal text between the name and the
`Tipo de Apoyo:` interpolation of `entry.paymentMethod`. -/
def rLit5 : String :=
  "</p>\n                  <p><strong>Tipo de Apoyo:</strong> "

/-- Receipt template, literal text between the payment method and the
`$` of the amount line. -/
def rLit6 : String :=
  "</p>\n              </div>\n              <div class=\"amount\">\n                  Monto: "

/-- Receipt template, literal text after the amount line. -/
def rLit7 : String :=
  "\n              </div>\n              <div class=\"footer\">\n                  <p>Recibo generado automáticamente por la aplicación.</p>\n              </div>\n          </div>\n      </body>\n      </html>\n    "

/-- `generateReceipt` from `App.js`, as the `receiptContent` document it
downloads: the HTML template with `entry.description` (twice),
the formatted `entryDate` (`fd`, environment-supplied locale long date),
`entry.entityName`, `entry.paymentMethod` and
`$${entry.amount.toFixed(2)} MXN` interpolated verbatim. -/
def generateReceipt (fd : String) (e : Entry) : String :=
  rLit1 ++ jsStr e.description ++ rLit2 ++ fd ++ rLit3
    ++ jsStr e.description ++ rLit4 ++ jsStr e.entityName ++ rLit5
    ++ jsStr e.paymentMethod ++ rLit6 ++ "$" ++ jsToFixed e.amount
    ++ " MXN" ++ rLit7

/-- Prepend a character to the first field of the first row of a parse
result (rows and fields are built up front-to-back). -/
def consF (c : Char) : List (List (List Char)) → List (List (List Char))
  | (f :: fs) :: rs => ((c :: f) :: fs) :: rs
  | rs => rs

/-- Open a new (empty) first field at the front of the first row. -/
def newF : List (List (List Char)) → List (List (List Char))
  | fields :: rs => ([] :: fields) :: rs
  | rs => rs

/-- CSV parser for the documented export format: fields separated by
`,`, rows separated by `\n`, fields optionally enclosed in double
quotes inside which `""` denotes a literal `"` and separators are
ordinary characters.  `csvA q cs` parses `cs` starting inside quotes
when `q` is `true`; the result is the list of rows, each a list of
fields. -/
def csvA : Bool → List Char → List (List (List Char))
  | _, [] => [[[]]]
  | true, c :: cs =>
      if c = '"' then
        match cs with
        | [] => [[[]]]
        | c2 :: cs2 =>
            if c2 = '"' then consF '"' (csvA true cs2) else csvA false (c2 :: cs2)
      else consF c (csvA true cs)
  | false, c :: cs =>
      if c = '"' then csvA true cs
      else if c = ',' then newF (csvA false cs)
      else if c = '\n' then [[]] :: csvA false cs
      else consF c (csvA false cs)

/-- Parse a CSV document into its rows of field strings. -/
def csvParse (s : String) : List (List String) :=
  (csvA false s.data).map (fun r => r.map (fun f => String.mk f))

attribute [local semireducible] Rat.add Rat.mul Rat.sub

/-- The income record of the spec's three-record scenario. -/
def entIncome : Entry :=
  { id := "id1", description := some "Cuota mensual", amount := some 100,
    type := "ingreso", entityName := some "ACME", entryDate := "2024-01-01",
    paymentMethod := some "Efectivo", timestamp := 1 }

/-- The expense record of the spec's three-record scenario. -/
def entExpense : Entry :=
  { id := "id2", description := some "Papel", amount := some 40,
    type := "gasto", entityName := some "Office Depot",
    entryDate := "2024-01-02", paymentMethod := some "Tarjeta", timestamp := 2 }

/-- The support record of the spec's three-record scenario. -/
def entSupport : Entry :=
  { id := "id3", description := some "Apoyo", amount := some 20,
    type := "apoyo", entityName := some "Juan Pérez",
    entryDate := "2024-01-03", paymentMethod := some "Transferencia",
    timestamp := 3 }

/-- A stored record whose amount is not a valid number (`NaN`). -/
def entBadAmount : Entry :=
  { id := "id4", description := some "Gasto raro", amount := none,
    type := "gasto", entityName := some "Bazar", entryDate := "2024-01-04",
    paymentMethod := some "Efectivo", timestamp := 4 }

theorem specBalance_nil : specBalance [] = 0 := by
  simp [specBalance]

theorem calculateBalance_aux (l : List Entry) :
    ∀ a : ℚ, (∀ e ∈ l, (e.amount).isSome) →
      (∀ e ∈ l, e.type = "ingreso" ∨ e.type = "gasto" ∨ e.type = "apoyo") →
      l.foldl balanceStep (some a) = some (a + specBalance l) := by
  induction l with
  | nil => intro a _ _; simp [specBalance]
  | cons e t ih =>
      intro a h1 h2
      obtain ⟨q, hq⟩ := Option.isSome_iff_exists.mp (h1 e (by simp))
      have ht := h2 e (by simp)
      have h1t : ∀ x ∈ t, (x.amount).isSome := fun x hx => h1 x (by simp [hx])
      have h2t : ∀ x ∈ t, x.type = "ingreso" ∨ x.type = "gasto" ∨ x.type = "apoyo" :=
        fun x hx => h2 x (by simp [hx])
      rw [List.foldl_cons]
      rcases ht with hty | hty | hty
      · have hstep : balanceStep (some a) e = some (a + q) := by
          simp [balanceStep, hty, hq, jsAdd]
        rw [hstep, ih _ h1t h2t]
        have hsb : specBalance (e :: t) = q + specBalance t := by
          simp [specBalance, List.filter_cons, hty, hq]; ring
        rw [hsb]; ring_nf
      · have hstep : balanceStep (some a) e = some (a - q) := by
          simp [balanceStep, hty, hq, jsSub]
        rw [hstep, ih _ h1t h2t]
        have hsb : specBalance (e :: t) = -q + specBalance t := by
          simp [specBalance, List.filter_cons, hty, hq]
          ring
        rw [hsb]; ring_nf
      · have hstep : balanceStep (some a) e = some (a + q) := by
          simp [balanceStep, hty, hq, jsAdd]
        rw [hstep, ih _ h1t h2t]
        have hsb : specBalance (e :: t) = q + specBalance t := by
          simp [specBalance, List.filter_cons, hty, hq]; ring
        rw [hsb]; ring_nf

/-- C1: For every record set (with category one of income/expense/support
and every amount a valid number, as the data model requires), the
Balance Calculator returns the sum of `amount` over records whose
category is income or support minus the sum of `amount` over records
whose category is expense; in particular, for the empty record set it
returns 0. -/
theorem c1_calculateBalance_correct (l : List Entry)
    (h1 : ∀ e ∈ l, (e.amount).isSome)
    (h2 : ∀ e ∈ l, e.type = "ingreso" ∨ e.type = "gasto" ∨ e.type = "apoyo") :
    calculateBalance l = some (specBalance l)
      ∧ calculateBalance [] = some 0 := by
  refine ⟨?_, rfl⟩
  have h := calculateBalance_aux l 0 h1 h2
  simpa [calculateBalance] using h

/-- C1 witness: the spec's three-record scenario (income 100, expense
40, support 20), whose balance is 80. -/
theorem c1_calculateBalance_correct_witness :
    (calculateBalance [entIncome, entExpense, entSupport]
        = some (specBalance [entIncome, entExpense, entSupport])
      ∧ calculateBalance [] = some 0)
    ∧ specBalance [entIncome, entExpense, entSupport] = 80 :=
  ⟨c1_calculateBalance_correct _ (by decide) (by decide), by decide⟩

/-- C2 counterexample: on a record set holding a valid income of 100 and
an expense whose amount is not a valid number, `calculateBalance` does
not return the numeric signed total of the remaining records (which
would be `some 100`, the invalid record contributing 0); it returns
`none` (`NaN`). -/
theorem c2_counterexample :
    calculateBalance [entIncome, entBadAmount]
        ≠ some (specBalance [entIncome, entBadAmount])
      ∧ calculateBalance [entIncome, entBadAmount] = none
      ∧ specBalance [entIncome, entBadAmount] = 100 := by
  refine ⟨?_, by decide, by decide⟩
  decide

/-- C2 as amended: if any record's amount is not a valid number, the
whole balance is `NaN` (non-numeric) — the invalid record's `NaN`
contribution propagates through the reduction instead of being treated
as 0. -/
theorem jsAdd_none (a : Option ℚ) : jsAdd a none = none := by
  cases a <;> rfl

theorem jsSub_none (a : Option ℚ) : jsSub a none = none := by
  cases a <;> rfl

theorem c2_amended_nan_poisons_balance (l : List Entry)
    (h : ∃ e ∈ l, e.amount = none) :
    calculateBalance l = none := by
  have hnone : ∀ t : List Entry, t.foldl balanceStep none = none := by
    intro t
    induction t with
    | nil => rfl
    | cons e t ih =>
        have hstep : balanceStep none e = none := by
          unfold balanceStep jsAdd jsSub
          split <;> rfl
        rw [List.foldl_cons, hstep, ih]
  have haux : ∀ t : List Entry, (∃ e ∈ t, e.amount = none) →
      ∀ acc : Option ℚ, t.foldl balanceStep acc = none := by
    intro t
    induction t with
    | nil => rintro ⟨e, he, _⟩; cases he
    | cons e t ih =>
        rintro ⟨x, hx, hxa⟩ acc
        rcases List.mem_cons.mp hx with rfl | hxt
        · have hstep : balanceStep acc x = none := by
            unfold balanceStep
            rw [hxa]
            split <;> simp [jsAdd_none, jsSub_none]
          rw [List.foldl_cons, hstep, hnone]
        · rw [List.foldl_cons]
          exact ih ⟨x, hxt, hxa⟩ _
  exact haux l h (some 0)

/-- C2 amended witness: the concrete two-record set of the
counterexample. -/
theorem c2_amended_witness :
    calculateBalance [entIncome, entBadAmount] = none :=
  c2_amended_nan_poisons_balance _ ⟨entBadAmount, by decide, by decide⟩

/-- A form state whose amount text is non-empty but not numeric:
`parseFloat("abc")` is `NaN`. -/
def nanAmountForm : FormState :=
  { type := "gasto", specificDescription := "Papel",
    specificEntityName := "Office Depot", amountRaw := "abc",
    amountParsed := none, entryDate := "2024-06-01",
    paymentMethod := "Efectivo" }

/-- C3 failing input: with description, name and date filled in and the
amount text `"abc"`, `NaN <= 0` is false in JS, so the validation guard
does not fire and `addEntry` issues a create call whose record's amount
is `NaN` — the claim (and the spec's `amount > 0` invariant) requires a
rejection here.  The guard does reject every empty-field and
non-positive-parse case, but lets non-numeric non-empty amounts
through. -/
theorem c3_nan_amount_accepted :
    addEntry 0 nanAmountForm ≠ none
      ∧ (addEntry 0 nanAmountForm).map Entry.amount = some none
      ∧ (addEntry 0 nanAmountForm).map Entry.type = some "gasto" := by
  refine ⟨?_, rfl, rfl⟩
  decide

/-- C4: on every category change, the description becomes the literal
text "Apoyo" exactly when the new category is support (`apoyo`) and
empty otherwise; the counterparty name and the amount become empty; the
entry date becomes the current calendar date; and the payment method
becomes cash ("Efectivo"). -/
theorem c4_onTypeChange_resets (t today : String) (s : FormState) :
    (onTypeChange t today s).specificDescription
        = (if t = "apoyo" then "Apoyo" else "")
      ∧ (onTypeChange t today s).specificEntityName = ""
      ∧ (onTypeChange t today s).amountRaw = ""
      ∧ (onTypeChange t today s).entryDate = today
      ∧ (onTypeChange t today s).paymentMethod = "Efectivo" :=
  ⟨rfl, rfl, rfl, rfl, rfl⟩

/-- C7: exporting an empty record set produces no file (and, the export
being a pure function of the record set, changes neither the records
nor the balance) and reports "No hay registros para exportar." to the
user. -/
theorem c7_export_empty_noop (ld : Int → String) :
    exportToCSV ld [] = (none, "No hay registros para exportar.") :=
  rfl

theorem toFixed2_shape (q : ℚ) :
    ∃ p c1 c2, toFixed2 q = p ++ "." ++ String.mk [c1, c2] :=
  ⟨(if q < 0 then "-" else "") ++ natDecStr (jsCents q / 100),
    Nat.digitChar (jsCents q % 100 / 10 % 10),
    Nat.digitChar (jsCents q % 100 % 10), rfl⟩

/-- C8: for every support record with a numeric amount, the generated
receipt document contains `$`, the amount formatted by `toFixed(2)`,
and the ` MXN` currency suffix, contiguously; and that formatted amount
has exactly two decimal places. -/
theorem c8_receipt_amount_format (fd : String) (e : Entry) (q : ℚ)
    (hty : e.type = "apoyo") (hq : e.amount = some q) :
    ("$" ++ toFixed2 q ++ " MXN").data <:+: (generateReceipt fd e).data
      ∧ ∃ p c1 c2, toFixed2 q = p ++ "." ++ String.mk [c1, c2] := by
  refine ⟨⟨(rLit1 ++ jsStr e.description ++ rLit2 ++ fd ++ rLit3
      ++ jsStr e.description ++ rLit4 ++ jsStr e.entityName ++ rLit5
      ++ jsStr e.paymentMethod ++ rLit6).data, rLit7.data, ?_⟩,
    toFixed2_shape q⟩
  simp [generateReceipt, hq, jsToFixed, String.data_append, List.append_assoc]

/-- A support record with amount 50.5, for the receipt scenario. -/
def entReceipt : Entry :=
  { id := "", description := some "Apoyo", amount := some (mkRat 101 2),
    type := "apoyo", entityName := some "Juan Pérez",
    entryDate := "2024-01-03", paymentMethod := some "Efectivo",
    timestamp := 5 }

/-- C8 witness: the support record with amount 50.5 renders `$50.50`
(followed by ` MXN`) in the output document. -/
theorem c8_receipt_amount_format_witness :
    (("$" ++ toFixed2 (mkRat 101 2) ++ " MXN").data
        <:+: (generateReceipt "3 de enero de 2024" entReceipt).data
      ∧ ∃ p c1 c2, toFixed2 (mkRat 101 2) = p ++ "." ++ String.mk [c1, c2])
    ∧ toFixed2 (mkRat 101 2) = "50.50" :=
  ⟨c8_receipt_amount_format "3 de enero de 2024" entReceipt (mkRat 101 2)
      rfl rfl,
    by decide⟩

/-- C10: for every support record with its fields present, the generated
receipt document contains the record's description, counterparty name
and payment method verbatim as substrings — no character escaping is
applied to them, so HTML markup in those fields lands unescaped in the
document. -/
theorem c10_receipt_fields_verbatim (fd : String) (e : Entry)
    (d n p : String) (hty : e.type = "apoyo")
    (hd : e.description = some d) (hn : e.entityName = some n)
    (hp : e.paymentMethod = some p) :
    d.data <:+: (generateReceipt fd e).data
      ∧ n.data <:+: (generateReceipt fd e).data
      ∧ p.data <:+: (generateReceipt fd e).data := by
  refine ⟨⟨rLit1.data, (rLit2 ++ fd ++ rLit3 ++ d ++ rLit4 ++ n ++ rLit5
      ++ p ++ rLit6 ++ "$" ++ jsToFixed e.amount ++ " MXN" ++ rLit7).data,
      ?_⟩,
    ⟨(rLit1 ++ d ++ rLit2 ++ fd ++ rLit3 ++ d ++ rLit4).data,
      (rLit5 ++ p ++ rLit6 ++ "$" ++ jsToFixed e.amount ++ " MXN"
        ++ rLit7).data, ?_⟩,
    ⟨(rLit1 ++ d ++ rLit2 ++ fd ++ rLit3 ++ d ++ rLit4 ++ n
        ++ rLit5).data,
      (rLit6 ++ "$" ++ jsToFixed e.amount ++ " MXN" ++ rLit7).data, ?_⟩⟩
  all_goals
    simp [generateReceipt, hd, hn, hp, jsStr, String.data_append,
      List.append_assoc]

/-- A support record whose text fields contain HTML markup. -/
def entMarkup : Entry :=
  { id := "m1", description := some "<script>alert(1)</script>",
    amount := some 10, type := "apoyo",
    entityName := some "<b>Juan</b>", entryDate := "2024-02-02",
    paymentMethod := some "<i>Efectivo</i>", timestamp := 6 }

/-- C10 witness: markup-laden fields appear verbatim (unescaped) in the
receipt document. -/
theorem c10_receipt_fields_verbatim_witness :
    "<script>alert(1)</script>".data
        <:+: (generateReceipt "x" entMarkup).data
      ∧ "<b>Juan</b>".data <:+: (generateReceipt "x" entMarkup).data
      ∧ "<i>Efectivo</i>".data <:+: (generateReceipt "x" entMarkup).data :=
  c10_receipt_fields_verbatim "x" entMarkup _ _ _ rfl rfl rfl rfl

theorem quotedCol_some (s : String) :
    quotedCol (some s) = "\"" ++ escQ s ++ "\"" := by
  by_cases h : s = ""
  · subst h; rfl
  · simp [quotedCol, h]

theorem amountCol_some (q : ℚ) (h : q ≠ 0) :
    amountCol (some q) = toFixed2 q := by
  simp [amountCol, h]

theorem amountCol_shape (a : Option ℚ) :
    ∃ p c1 c2, amountCol a = p ++ "." ++ String.mk [c1, c2] := by
  match a with
  | none => exact ⟨"0", '0', '0', rfl⟩
  | some q =>
      by_cases h : q = 0
      · exact ⟨"0", '0', '0', by simp [amountCol, h]⟩
      · rw [amountCol_some q h]; exact toFixed2_shape q

/-- Spec-side CSV row, written from the specification text: identifier,
`createdAt` rendered as a locale date (not `entryDate`), the
double-quoted description with internal quotes doubled, the amount with
exactly two decimal places, the category, the double-quoted
counterparty name with internal quotes doubled, and the payment method,
comma-separated. -/
def specCsvRow (ld : Int → String) (e : Entry) : String :=
  e.id ++ "," ++ ld e.timestamp ++ ","
    ++ "\"" ++ escQ ((e.description).getD "") ++ "\"" ++ ","
    ++ toFixed2 ((e.amount).getD 0) ++ ","
    ++ e.type ++ ","
    ++ "\"" ++ escQ ((e.entityName).getD "") ++ "\"" ++ ","
    ++ (e.paymentMethod).getD ""

/-- C5: on a non-empty record set (whose records carry the data model's
required fields: a positive numeric amount, a description, a name, and
a non-empty payment method), the export produces exactly the header row
`ID,Fecha,Descripción,Monto,Tipo,Entidad,Método de Pago` followed by
one spec-shaped row per record in the set's current order — date column
from `createdAt` (`timestamp`) locale-formatted, amount via
`toFixed(2)`, description and name double-quoted with internal quotes
doubled — and every amount cell has exactly two decimal places. -/
theorem c5_export_rows (ld : Int → String) (l : List Entry)
    (hne : l ≠ [])
    (h : ∀ e ∈ l, (∃ q, e.amount = some q ∧ 0 < q)
        ∧ (e.description).isSome ∧ (e.entityName).isSome
        ∧ (∃ p, e.paymentMethod = some p ∧ p ≠ "")) :
    (exportToCSV ld l).1
        = some ("ID,Fecha,Descripción,Monto,Tipo,Entidad,Método de Pago"
            ++ "\n" ++ jsJoin "\n" (l.map (specCsvRow ld)))
      ∧ ∀ e ∈ l, ∃ p c1 c2,
          amountCol e.amount = p ++ "." ++ String.mk [c1, c2] := by
  refine ⟨?_, fun e _ => amountCol_shape e.amount⟩
  have hrow : l.map (fun e => jsJoin "," (csvCols ld e))
      = l.map (specCsvRow ld) := by
    apply List.map_congr_left
    intro e he
    obtain ⟨⟨q, hq, hq0⟩, hdesc, hname, ⟨p, hp, hpne⟩⟩ := h e he
    obtain ⟨d, hd⟩ := Option.isSome_iff_exists.mp hdesc
    obtain ⟨n, hn⟩ := Option.isSome_iff_exists.mp hname
    apply String.ext
    simp [csvCols, specCsvRow, jsJoin, quotedCol_some,
      amountCol_some q (ne_of_gt hq0), pmCol, hq, hd, hn, hp,
      String.data_append, List.append_assoc]
  have hhead : jsJoin "," headerCols
      = "ID,Fecha,Descripción,Monto,Tipo,Entidad,Método de Pago" := rfl
  simp only [exportToCSV, if_neg hne, hrow, hhead]

/-- C5 witness: the spec's three-record scenario exports as a header
plus three rows. -/
theorem c5_export_rows_witness :
    (exportToCSV (fun _ => "1/1/2024") [entIncome, entExpense, entSupport]).1
        = some ("ID,Fecha,Descripción,Monto,Tipo,Entidad,Método de Pago"
            ++ "\n" ++ jsJoin "\n"
              ([entIncome, entExpense, entSupport].map
                (specCsvRow (fun _ => "1/1/2024"))))
      ∧ ∀ e ∈ [entIncome, entExpense, entSupport], ∃ p c1 c2,
          amountCol e.amount = p ++ "." ++ String.mk [c1, c2] :=
  c5_export_rows _ _ (by decide) (by
    intro e he
    fin_cases he
    · exact ⟨⟨100, rfl, by norm_num⟩, rfl, rfl, ⟨"Efectivo", rfl, by decide⟩⟩
    · exact ⟨⟨40, rfl, by norm_num⟩, rfl, rfl, ⟨"Tarjeta", rfl, by decide⟩⟩
    · exact ⟨⟨20, rfl, by norm_num⟩, rfl, rfl,
        ⟨"Transferencia", rfl, by decide⟩⟩)

/-- C9: the CSV row builder is total on malformed records — every row
has exactly its seven cells, a missing or zero amount serializes as
`0.00`, a missing payment method as the empty string, and a missing
description or counterparty name as an empty double-quoted field. -/
theorem c9_export_total_on_malformed (ld : Int → String) (e : Entry) :
    (csvCols ld e).length = 7
      ∧ (e.amount = none ∨ e.amount = some 0 → amountCol e.amount = "0.00")
      ∧ (e.paymentMethod = none → pmCol e.paymentMethod = "")
      ∧ (e.description = none → quotedCol e.description = "\"\"")
      ∧ (e.entityName = none → quotedCol e.entityName = "\"\"") := by
  refine ⟨rfl, ?_, ?_, ?_, ?_⟩
  · rintro (ha | ha) <;> simp [ha, amountCol]
  · intro hp; simp [hp, pmCol]
  · intro hd; simp [hd, quotedCol]
  · intro hn; simp [hn, quotedCol]

/-- A record missing its description, name, amount and payment method. -/
def entMalformed : Entry :=
  { id := "x", description := none, amount := none, type := "gasto",
    entityName := none, entryDate := "", paymentMethod := none,
    timestamp := 0 }

/-- C9 witness: the fully malformed record still serializes to a
seven-cell row with the documented fallback cells. -/
theorem c9_export_total_on_malformed_witness :
    (csvCols (fun _ => "1/1/2024") entMalformed).length = 7
      ∧ amountCol entMalformed.amount = "0.00"
      ∧ pmCol entMalformed.paymentMethod = ""
      ∧ quotedCol entMalformed.description = "\"\""
      ∧ quotedCol entMalformed.entityName = "\"\"" :=
  ⟨(c9_export_total_on_malformed (fun _ => "1/1/2024") entMalformed).1,
    (c9_export_total_on_malformed (fun _ => "1/1/2024") entMalformed).2.1
      (Or.inl rfl),
    (c9_export_total_on_malformed (fun _ => "1/1/2024") entMalformed).2.2.1
      rfl,
    (c9_export_total_on_malformed (fun _ => "1/1/2024") entMalformed).2.2.2.1
      rfl,
    (c9_export_total_on_malformed (fun _ => "1/1/2024") entMalformed).2.2.2.2
      rfl⟩

/-- A character is plain when it is none of the CSV metacharacters. -/
def plainChar (c : Char) : Prop :=
  c ≠ '"' ∧ c ≠ ',' ∧ c ≠ '\n'

instance (c : Char) : Decidable (plainChar c) := by
  unfold plainChar; infer_instance

/-- A cell of the exported CSV: either rendered bare (`plain`) or
wrapped in double quotes with internal quotes doubled (`quoted`).  The
payload is the cell's value. -/
inductive Cell
  | plain (l : List Char)
  | quoted (l : List Char)
deriving DecidableEq

/-- The characters a cell contributes to the CSV text. -/
def cellText : Cell → List Char
  | Cell.plain l => l
  | Cell.quoted l => '"' :: (escC l ++ ['"'])

/-- The value a cell carries. -/
def cellVal : Cell → List Char
  | Cell.plain l => l
  | Cell.quoted l => l

/-- A plain cell must consist of plain characters; a quoted cell is
unconstrained. -/
def cellOk : Cell → Prop
  | Cell.plain l => ∀ c ∈ l, plainChar c
  | Cell.quoted _ => True

/-- Prepend a string of characters to the first field of the first row
of a parse result. -/
def prependF (l : List Char) (rows : List (List (List Char))) :
    List (List (List Char)) :=
  l.foldr consF rows

theorem prependF_field (l f : List Char) (fs : List (List Char))
    (rs : List (List (List Char))) :
    prependF l ((f :: fs) :: rs) = ((l ++ f) :: fs) :: rs := by
  induction l with
  | nil => rfl
  | cons c t ih =>
      show consF c (prependF t ((f :: fs) :: rs)) = _
      rw [ih]
      rfl

theorem csvA_nil (q : Bool) : csvA q [] = [[[]]] := by
  cases q <;> rfl

theorem csvAF_quote (cs : List Char) :
    csvA false ('"' :: cs) = csvA true cs := by
  simp [csvA]

theorem csvAF_comma (cs : List Char) :
    csvA false (',' :: cs) = newF (csvA false cs) := by
  simp [csvA]

theorem csvAF_nl (cs : List Char) :
    csvA false ('\n' :: cs) = [[]] :: csvA false cs := by
  simp [csvA]

theorem csvAF_other (c : Char) (cs : List Char) (h1 : c ≠ '"')
    (h2 : c ≠ ',') (h3 : c ≠ '\n') :
    csvA false (c :: cs) = consF c (csvA false cs) := by
  simp [csvA, h1, h2, h3]

theorem csvAT_other (c : Char) (cs : List Char) (h : c ≠ '"') :
    csvA true (c :: cs) = consF c (csvA true cs) := by
  cases cs with
  | nil => simp [csvA, h]
  | cons c2 cs2 => simp [csvA, h]

theorem csvAT_qq (cs : List Char) :
    csvA true ('"' :: '"' :: cs) = consF '"' (csvA true cs) := by
  simp [csvA]

theorem csvAT_qend (c : Char) (cs : List Char) (h : c ≠ '"') :
    csvA true ('"' :: c :: cs) = csvA false (c :: cs) := by
  simp [csvA, h]

theorem csvAT_qnil : csvA true ['"'] = [[[]]] := by
  rfl

theorem csvA_quoted_content (l rest : List Char)
    (hrest : rest.head? ≠ some '"') :
    csvA true (escC l ++ '"' :: rest) = prependF l (csvA false rest) := by
  induction l with
  | nil =>
      show csvA true ('"' :: rest) = csvA false rest
      cases rest with
      | nil => rw [csvAT_qnil, csvA_nil]
      | cons r rs =>
          have hr : r ≠ '"' := by
            intro hcontra; apply hrest; rw [hcontra]; rfl
          exact csvAT_qend r rs hr
  | cons c t ih =>
      by_cases hc : c = '"'
      · subst hc
        show csvA true ('"' :: '"' :: (escC t ++ '"' :: rest)) = _
        rw [csvAT_qq, ih]
        rfl
      · have he : escC (c :: t) = c :: escC t := by simp [escC, hc]
        rw [he, List.cons_append, csvAT_other c _ hc, ih]
        rfl

theorem csvA_plain_run (l rest : List Char) (hok : ∀ c ∈ l, plainChar c) :
    csvA false (l ++ rest) = prependF l (csvA false rest) := by
  induction l with
  | nil => rfl
  | cons c t ih =>
      obtain ⟨h1, h2, h3⟩ := hok c (by simp)
      have hok2 : ∀ x ∈ t, plainChar x := fun x hx => hok x (by simp [hx])
      rw [List.cons_append, csvAF_other c _ h1 h2 h3, ih hok2]
      rfl

theorem csvA_cell (k : Cell) (rest : List Char) (hok : cellOk k)
    (hrest : rest.head? ≠ some '"') :
    csvA false (cellText k ++ rest)
      = prependF (cellVal k) (csvA false rest) := by
  match k with
  | Cell.plain l => exact csvA_plain_run l rest hok
  | Cell.quoted l =>
      show csvA false ('"' :: (escC l ++ ['"']) ++ rest) = _
      rw [List.cons_append, List.append_assoc, List.singleton_append,
        csvAF_quote, csvA_quoted_content l rest hrest]
      rfl

/-- `Array.prototype.join` at the character-list level. -/
def jsJoinL (sep : List Char) : List (List Char) → List Char
  | [] => []
  | [x] => x
  | x :: xs => x ++ sep ++ jsJoinL sep xs

theorem jsJoinL_pair (sep x y : List Char) (xs : List (List Char)) :
    jsJoinL sep (x :: y :: xs) = x ++ sep ++ jsJoinL sep (y :: xs) := by
  rfl

theorem data_jsJoin (sep : String) (l : List String) :
    (jsJoin sep l).data = jsJoinL sep.data (l.map String.data) := by
  induction l with
  | nil => rfl
  | cons x xs ih =>
      cases xs with
      | nil => rfl
      | cons y ys =>
          show (x ++ sep ++ jsJoin sep (y :: ys)).data = _
          rw [List.map_cons, List.map_cons, jsJoinL_pair]
          simp [String.data_append, ih]

/-- The CSV text of one row of cells. -/
def rowText (cells : List Cell) : List Char :=
  jsJoinL [','] (cells.map cellText)

theorem csvA_row_cons (cells : List Cell) (rest : List Char)
    (hne : cells ≠ []) (hok : ∀ k ∈ cells, cellOk k) :
    csvA false (rowText cells ++ '\n' :: rest)
      = (cells.map cellVal) :: csvA false rest := by
  induction cells with
  | nil => exact absurd rfl hne
  | cons k t ih =>
      cases t with
      | nil =>
          show csvA false (cellText k ++ '\n' :: rest) = _
          rw [csvA_cell k _ (hok k (by simp)) (by simp), csvAF_nl,
            prependF_field]
          simp
      | cons k2 t2 =>
          have hok2 : ∀ x ∈ k2 :: t2, cellOk x :=
            fun x hx => hok x (by simp [hx])
          rw [rowText, List.map_cons, List.map_cons, jsJoinL_pair,
            List.append_assoc, List.append_assoc, List.singleton_append]
          rw [show (cellText k2 :: List.map cellText t2)
              = (k2 :: t2).map cellText from rfl]
          rw [csvA_cell k _ (hok k (by simp)) (by simp)]
          rw [show jsJoinL [','] ((k2 :: t2).map cellText) ++ '\n' :: rest
              = rowText (k2 :: t2) ++ '\n' :: rest from rfl]
          rw [csvAF_comma, ih (by simp) hok2, newF, prependF_field]
          simp

theorem csvA_row_last (cells : List Cell) (hne : cells ≠ [])
    (hok : ∀ k ∈ cells, cellOk k) :
    csvA false (rowText cells) = [cells.map cellVal] := by
  induction cells with
  | nil => exact absurd rfl hne
  | cons k t ih =>
      cases t with
      | nil =>
          show csvA false (cellText k) = _
          rw [show cellText k = cellText k ++ [] from (List.append_nil _).symm,
            csvA_cell k _ (hok k (by simp)) (by simp), csvA_nil,
            prependF_field]
          simp
      | cons k2 t2 =>
          have hok2 : ∀ x ∈ k2 :: t2, cellOk x :=
            fun x hx => hok x (by simp [hx])
          rw [rowText, List.map_cons, List.map_cons, jsJoinL_pair,
            List.append_assoc, List.singleton_append]
          rw [show (cellText k2 :: List.map cellText t2)
              = (k2 :: t2).map cellText from rfl]
          rw [csvA_cell k _ (hok k (by simp)) (by simp)]
          rw [show jsJoinL [','] ((k2 :: t2).map cellText)
              = rowText (k2 :: t2) from rfl]
          rw [csvAF_comma, ih (by simp) hok2, newF, prependF_field]
          simp

theorem csvA_table (rows : List (List Cell)) (hne : rows ≠ [])
    (h : ∀ r ∈ rows, r ≠ [] ∧ ∀ k ∈ r, cellOk k) :
    csvA false (jsJoinL ['\n'] (rows.map rowText))
      = rows.map (fun r => r.map cellVal) := by
  induction rows with
  | nil => exact absurd rfl hne
  | cons r t ih =>
      cases t with
      | nil =>
          show csvA false (rowText r) = _
          rw [csvA_row_last r (h r (by simp)).1 (h r (by simp)).2]
          rfl
      | cons r2 t2 =>
          have h2 : ∀ x ∈ r2 :: t2, x ≠ [] ∧ ∀ k ∈ x, cellOk k :=
            fun x hx => h x (by simp [hx])
          rw [List.map_cons, List.map_cons, jsJoinL_pair,
            List.append_assoc, List.singleton_append]
          rw [show (rowText r2 :: List.map rowText t2)
              = (r2 :: t2).map rowText from rfl]
          rw [csvA_row_cons r _ (h r (by simp)).1 (h r (by simp)).2,
            ih (by simp) h2]
          rfl

theorem digitChar_plain (d : Nat) : plainChar (Nat.digitChar d) := by
  by_cases h16 : d < 16
  · interval_cases d <;> decide
  · have hstar : Nat.digitChar d = '*' := by
      unfold Nat.digitChar
      repeat rw [if_neg (by omega)]
    rw [hstar]; decide

theorem natDigs_mem (fuel : Nat) :
    ∀ n acc c, c ∈ natDigs fuel n acc → c ∈ acc ∨ ∃ d, c = Nat.digitChar d := by
  induction fuel with
  | zero => intro n acc c hc; exact Or.inl hc
  | succ f ih =>
      intro n acc c hc
      rw [natDigs] at hc
      by_cases hn : n = 0
      · rw [if_pos hn] at hc; exact Or.inl hc
      · rw [if_neg hn] at hc
        rcases ih (n / 10) _ c hc with hmem | hd
        · rcases List.mem_cons.mp hmem with hh | hacc
          · exact Or.inr ⟨n % 10, hh⟩
          · exact Or.inl hacc
        · exact Or.inr hd

theorem natDecStr_plain (n : Nat) : ∀ c ∈ (natDecStr n).data, plainChar c := by
  intro c hc
  unfold natDecStr at hc
  by_cases hn : n = 0
  · rw [if_pos hn] at hc
    simp at hc
    subst hc; decide
  · rw [if_neg hn] at hc
    rcases natDigs_mem n n [] c hc with hmem | ⟨d, hd⟩
    · cases hmem
    · subst hd; exact digitChar_plain d

theorem toFixed2_plain (q : ℚ) : ∀ c ∈ (toFixed2 q).data, plainChar c := by
  intro c hc
  unfold toFixed2 at hc
  simp only [String.data_append, List.mem_append] at hc
  rcases hc with ((hs | hn) | hdot) | htwo
  · split at hs
    · simp at hs; subst hs; decide
    · cases hs
  · exact natDecStr_plain _ c hn
  · simp at hdot; subst hdot; decide
  · unfold twoDigs at htwo
    rcases List.mem_cons.mp htwo with h1 | h2
    · subst h1; exact digitChar_plain _
    · rcases List.mem_cons.mp h2 with h1 | h0
      · subst h1; exact digitChar_plain _
      · cases h0

theorem amountCol_plain (a : Option ℚ) :
    ∀ c ∈ (amountCol a).data, plainChar c := by
  intro c hc
  match a with
  | none =>
      rw [show amountCol none = "0.00" from rfl] at hc
      fin_cases hc <;> decide
  | some q =>
      by_cases h : q = 0
      · subst h
        rw [show amountCol (some 0) = "0.00" from rfl] at hc
        fin_cases hc <;> decide
      · rw [amountCol_some q h] at hc
        exact toFixed2_plain q c hc

theorem data_mk (l : List Char) : (String.mk l).data = l := rfl

theorem mk_data (s : String) : String.mk s.data = s := rfl

theorem data_quotedCol (o : Option String) :
    (quotedCol o).data = cellText (Cell.quoted ((o.getD "").data)) := by
  match o with
  | none => rfl
  | some s =>
      rw [quotedCol_some]
      show ("\"" ++ escQ s ++ "\"").data = '"' :: (escC s.data ++ ['"'])
      simp [String.data_append, escQ, data_mk]

/-- The cells of one exported row, with the description and the
counterparty name as quoted cells and the other five as plain cells. -/
def entryCells (ld : Int → String) (e : Entry) : List Cell :=
  [Cell.plain e.id.data, Cell.plain (ld e.timestamp).data,
    Cell.quoted (((e.description).getD "").data),
    Cell.plain (amountCol e.amount).data, Cell.plain e.type.data,
    Cell.quoted (((e.entityName).getD "").data),
    Cell.plain (pmCol e.paymentMethod).data]

theorem data_entryRow (ld : Int → String) (e : Entry) :
    (jsJoin "," (csvCols ld e)).data = rowText (entryCells ld e) := by
  rw [data_jsJoin, rowText]
  simp [csvCols, entryCells, cellText, data_quotedCol]

/-- The header row as cells. -/
def headerCells : List Cell :=
  headerCols.map (fun s => Cell.plain s.data)

theorem data_headerRow : (jsJoin "," headerCols).data = rowText headerCells := by
  rfl

theorem rowText_headerCells :
    jsJoinL [','] (headerCols.map String.data) = rowText headerCells := by
  rw [← data_jsJoin]
  exact data_headerRow

theorem rowText_entryCells (ld : Int → String) (e : Entry) :
    jsJoinL [','] ((csvCols ld e).map String.data)
      = rowText (entryCells ld e) := by
  rw [← data_jsJoin]
  exact data_entryRow ld e

/-- C6: for every non-empty record set whose bare-rendered cells
(identifier, category, locale date, payment method) consist of plain
characters — as the data model's opaque identifiers, category and
payment-method enumerations, and numeric locale dates do — parsing the
exported CSV text by the documented delimiter and quoting rules
recovers the header and, for every record in order, exactly its seven
cells; in particular the original description and counterparty-name
strings are recovered verbatim, however many commas, quotes or other
characters they contain. -/
theorem c6_csv_roundtrip (ld : Int → String) (l : List Entry)
    (hne : l ≠ [])
    (h : ∀ e ∈ l,
        (∀ c ∈ e.id.data, plainChar c)
        ∧ (∀ c ∈ (ld e.timestamp).data, plainChar c)
        ∧ (∀ c ∈ e.type.data, plainChar c)
        ∧ (∀ c ∈ (pmCol e.paymentMethod).data, plainChar c)
        ∧ (e.description).isSome ∧ (e.entityName).isSome) :
    ∀ s, (exportToCSV ld l).1 = some s →
      csvParse s
        = headerCols
          :: l.map (fun e =>
              [e.id, ld e.timestamp, (e.description).getD "",
                amountCol e.amount, e.type, (e.entityName).getD "",
                pmCol e.paymentMethod]) := by
  intro s hs
  simp only [exportToCSV, if_neg hne] at hs
  obtain rfl : _ = s := Option.some.inj hs
  have hdata : (jsJoin "," headerCols ++ "\n"
        ++ jsJoin "\n" (l.map (fun e => jsJoin "," (csvCols ld e)))).data
      = jsJoinL ['\n'] ((headerCells :: l.map (entryCells ld)).map rowText) := by
    cases l with
    | nil => exact absurd rfl hne
    | cons e t =>
        simp only [List.map_cons]
        rw [jsJoinL_pair]
        simp only [String.data_append, data_jsJoin, List.map_cons,
          List.map_map]
        rw [rowText_headerCells, rowText_entryCells]
        have htail :
            List.map (String.data ∘ fun e2 => jsJoin "," (csvCols ld e2)) t
              = List.map (rowText ∘ entryCells ld) t := by
          apply List.map_congr_left
          intro x _
          exact data_entryRow ld x
        rw [htail]
  unfold csvParse
  rw [hdata, csvA_table]
  · simp only [List.map_cons, List.map_map]
    congr 1
  · simp
  · intro r hr
    rcases List.mem_cons.mp hr with rfl | hrl
    · refine ⟨by simp [headerCells, headerCols], ?_⟩
      intro k hk
      simp only [headerCells] at hk
      obtain ⟨s2, hs2, rfl⟩ := List.mem_map.mp hk
      show ∀ c ∈ s2.data, plainChar c
      fin_cases hs2 <;> decide
    · obtain ⟨e, hel, rfl⟩ := List.mem_map.mp hrl
      obtain ⟨hid, hld, hty, hpm, _, _⟩ := h e hel
      refine ⟨by simp [entryCells], ?_⟩
      intro k hk
      simp only [entryCells, List.mem_cons] at hk
      rcases hk with rfl | rfl | rfl | rfl | rfl | rfl | rfl | hfalse
      · exact hid
      · exact hld
      · trivial
      · exact amountCol_plain e.amount
      · exact hty
      · trivial
      · exact hpm
      · cases hfalse

/-- An expense record whose description and counterparty name contain
commas, double quotes and a newline. -/
def entTricky : Entry :=
  { id := "t1", description := some "Compra, \"urgente\"\ncaja",
    amount := some 100, type := "gasto",
    entityName := some "Tienda \"El Sol\", SA", entryDate := "2024-05-05",
    paymentMethod := some "Efectivo", timestamp := 9 }

/-- The fixed locale-date formatter used by concrete scenarios. -/
def ldFix : Int → String := fun _ => "1/1/2024"

/-- C6 witness: exporting a record whose description and name contain
commas, quotes and a newline, then parsing the CSV back, recovers the
original strings. -/
theorem c6_csv_roundtrip_witness :
    csvParse ((exportToCSV ldFix [entTricky, entIncome]).1.getD "")
      = headerCols
        :: [entTricky, entIncome].map (fun e =>
            [e.id, ldFix e.timestamp, (e.description).getD "",
              amountCol e.amount, e.type, (e.entityName).getD "",
              pmCol e.paymentMethod]) :=
  c6_csv_roundtrip ldFix [entTricky, entIncome] (by decide)
    (by intro e he; fin_cases he <;>
      exact ⟨by decide, by decide, by decide, by decide, rfl, rfl⟩)
    ((exportToCSV ldFix [entTricky, entIncome]).1.getD "") (by rfl)
